import Mathlib

/-!
Verification development for the CODE_EXPLAINER backend
(`backend/vectordb.py`, `backend/rag.py`, `backend/main.py`).

The Python code is shallowly embedded below.  Strings are modeled with Lean
`String`; the Python string primitives used by the source (`in`, `lower`,
`strip`, `lstrip`, `rstrip`, `replace`, `split`, `count`, slicing,
`startswith`, `join`) are defined first, mirroring Python semantics on the
underlying character lists.  The specific regular expressions appearing in
`rag.py` are embedded as dedicated matching functions (the patterns are simple
enough that greedy matching is deterministic; this is argued in the comments).
The sentence-embedding model is opaque in the specification, so it enters the
embedding as an explicit function parameter.
-/

set_option maxRecDepth 100000

/-- Python's whitespace class (ASCII part), as used by `str.strip`, `str.split`
and the regex class `\s`. -/
def isPySpace (c : Char) : Bool :=
  c = ' ' || c = '\t' || c = '\n' || c = '\r' || c = '\x0b' || c = '\x0c'

/-- The regex word-character class `\w` (ASCII letters, digits, underscore). -/
def isWordChar (c : Char) : Bool := c.isAlpha || c.isDigit || c = '_'

/-- Python substring test `needle in hay`. -/
def containsStr (needle hay : String) : Bool := decide (needle.data <:+: hay.data)

/-- Python `hay.startswith needle`. -/
def startsWithStr (needle hay : String) : Bool := needle.data.isPrefixOf hay.data

/-- Python `str.lower` (per-character lowering). -/
def pyLower (s : String) : String := String.mk (s.data.map Char.toLower)

/-- Remove the characters satisfying `p` from both ends of a list. -/
def dropEnds (p : Char → Bool) (l : List Char) : List Char :=
  ((l.dropWhile p).reverse.dropWhile p).reverse

/-- Python `str.strip()` (no argument: strip whitespace). -/
def pyStrip (s : String) : String := String.mk (dropEnds isPySpace s.data)

/-- Python `str.strip(chars)`. -/
def pyStripChars (cs : List Char) (s : String) : String :=
  String.mk (dropEnds (fun c => cs.contains c) s.data)

/-- Python `str.lstrip(chars)`. -/
def pyLStripChars (cs : List Char) (s : String) : String :=
  String.mk (s.data.dropWhile (fun c => cs.contains c))

/-- Python `str.rstrip(chars)`. -/
def pyRStripChars (cs : List Char) (s : String) : String :=
  String.mk ((s.data.reverse.dropWhile (fun c => cs.contains c)).reverse)

/-- Python `str.replace(pat, repl)`: replace all non-overlapping occurrences,
scanning left to right.  Structural recursion on fuel so that the kernel can
evaluate it: every step consumes at least one character (a successful match
consumes `pat.length ≥ 1`), so fuel equal to the input length suffices and
the fuel-exhausted case is never reached. -/
def replaceAllAux (pat repl : List Char) : Nat → List Char → List Char
  | _, [] => []
  | 0, s => s
  | fuel + 1, c :: rest =>
    if pat ≠ [] ∧ pat.isPrefixOf (c :: rest) = true then
      repl ++ replaceAllAux pat repl fuel ((c :: rest).drop pat.length)
    else
      c :: replaceAllAux pat repl fuel rest

def replaceAllL (pat repl s : List Char) : List Char := replaceAllAux pat repl s.length s

/-- Python `str.replace` on `String`. -/
def replaceAllStr (pat repl s : String) : String :=
  String.mk (replaceAllL pat.data repl.data s.data)

/-- Python `str.count(pat)`: non-overlapping occurrence count, left to right.
Fuel recursion as in `replaceAllAux`. -/
def countOccAux (pat : List Char) : Nat → List Char → Nat
  | _, [] => 0
  | 0, _ => 0
  | fuel + 1, c :: rest =>
    if pat ≠ [] ∧ pat.isPrefixOf (c :: rest) = true then
      countOccAux pat fuel ((c :: rest).drop pat.length) + 1
    else
      countOccAux pat fuel rest

def countOccL (pat s : List Char) : Nat := countOccAux pat s.length s

/-- Python `str.count` on `String`. -/
def countOcc (pat s : String) : Nat := countOccL pat.data s.data

/-- Python `str.split(sep)` for a one-character separator (always returns at
least one piece; a trailing separator yields a trailing empty piece). -/
def splitOnCharL (sep : Char) : List Char → List (List Char)
  | [] => [[]]
  | c :: rest =>
    if c = sep then [] :: splitOnCharL sep rest
    else
      match splitOnCharL sep rest with
      | [] => [[c]]
      | h :: t => (c :: h) :: t

/-- `code.split('\n')` — the physical lines of a snippet. -/
def pySplitLines (s : String) : List String := (splitOnCharL '\n' s.data).map String.mk

/-- Python `str.split()` with no separator: split on whitespace runs,
dropping empty pieces.  Fuel recursion: every step consumes at least one
character. -/
def wsTokensAux : Nat → List Char → List (List Char)
  | _, [] => []
  | 0, _ => []
  | fuel + 1, c :: rest =>
    if isPySpace c then wsTokensAux fuel rest
    else (c :: rest.takeWhile (fun d => !isPySpace d)) ::
         wsTokensAux fuel (rest.dropWhile (fun d => !isPySpace d))

def wsTokensL (s : List Char) : List (List Char) := wsTokensAux s.length s

/-- Python `sep.join(parts)`. -/
def pyJoin (sep : String) : List String → String
  | [] => ""
  | [x] => x
  | x :: y :: rest => x ++ sep ++ pyJoin sep (y :: rest)

/-- Python slicing `s[:n]`. -/
def takeChars (n : Nat) (s : String) : String := String.mk (s.data.take n)

/-! ## LanguageDetector (rag.py, lines 20-70) -/

def PYTHON_INDICATORS : List String :=
  ["def ", "self", "import ", "from ", "None", "async def",
   "print(", "lambda ", "if __name__", "elif ", "else:"]

def CPP_INDICATORS : List String :=
  ["std::", "cout", "cin", "namespace", "template<",
   "using namespace", "class ", "public:", "private:", "::"]

def C_INDICATORS : List String :=
  ["printf", "scanf", "#include <stdio.h>", "#include <stdlib.h>",
   "malloc", "free", "calloc", "realloc"]

/-- `any(indicator.lower() in lowered for indicator in INDICATORS)`. -/
def anyIndicator (inds : List String) (lowered : String) : Bool :=
  inds.any (fun ind => containsStr (pyLower ind) lowered)

/-- `LanguageDetector.detect` (rag.py lines 38-70).  The Python local
`lowered = code.lower()` is inlined as `pyLower code`; the override and the
later generic branches test the original-case `code`, exactly as the source
does. -/
def detect (code : String) : String :=
  if anyIndicator PYTHON_INDICATORS (pyLower code) then
    -- "Verify it's not C++ with class syntax"
    if containsStr "class " code && containsStr "\x7b" code && containsStr "::" code then "c++"
    else "python"
  else if anyIndicator CPP_INDICATORS (pyLower code) then "c++"
  else if anyIndicator C_INDICATORS (pyLower code) then "c"
  else if containsStr "#include" code then
    if (containsStr "class " code && containsStr "\x7b" code)
        || containsStr "namespace" code || containsStr "template" code then "c++"
    else "c"
  else if containsStr "class " code && containsStr ":" code && !containsStr "\x7b" code then
    "python"
  else "c"

/-! ## Claim C5 -/

/-- C5: `detect` is a total function into the closed label set
\x7bpython, c, c++\x7d; and every snippet that matches some python indicator
(case-insensitively), matches no c++ indicator and no c indicator, and does
not contain the combination of "class ", "\x7b" and "::" is classified
"python". -/
theorem detect_total_and_python_only (code : String) :
    (detect code = "python" ∨ detect code = "c" ∨ detect code = "c++") ∧
    (anyIndicator PYTHON_INDICATORS (pyLower code) = true →
      anyIndicator CPP_INDICATORS (pyLower code) = false →
      anyIndicator C_INDICATORS (pyLower code) = false →
      ¬(containsStr "class " code = true ∧ containsStr "\x7b" code = true ∧
        containsStr "::" code = true) →
      detect code = "python") := by
  constructor
  · unfold detect
    split_ifs <;> simp
  · intro hpy hcpp hc hcombo
    unfold detect
    rw [hpy]
    cases h1 : containsStr "class " code <;>
      cases h2 : containsStr "\x7b" code <;>
        cases h3 : containsStr "::" code <;> simp_all

/-- Witness for `detect_total_and_python_only` at a concrete snippet. -/
theorem detect_total_and_python_only_witness :
    detect "def f(): return 1" = "python" :=
  (detect_total_and_python_only "def f(): return 1").2
    (by decide) (by decide) (by decide) (by decide)

/-! ## Claim C3 -/

/-- C3 counterexample: the snippet "def f std::x" contains the substring
"std::", yet `detect` returns "python", not "c++" — the python-indicator
branch has higher precedence and its override does not fire
(no "class "/"\x7b" present). -/
theorem detect_std_counterexample :
    containsStr "std::" "def f std::x" = true ∧ detect "def f std::x" = "python" := by
  decide

/-- C3 (amended): for every snippet that contains "std::" or "namespace"
(case-insensitively) and matches no python indicator, `detect` returns
"c++". -/
theorem detect_cpp_markers (code : String)
    (h : containsStr "std::" (pyLower code) = true ∨
         containsStr "namespace" (pyLower code) = true)
    (hpy : anyIndicator PYTHON_INDICATORS (pyLower code) = false) :
    detect code = "c++" := by
  have hcpp : anyIndicator CPP_INDICATORS (pyLower code) = true := by
    unfold anyIndicator
    rcases h with h | h
    · refine List.any_eq_true.mpr ⟨"std::", by decide, ?_⟩
      have e : pyLower "std::" = "std::" := rfl
      rw [e]; exact h
    · refine List.any_eq_true.mpr ⟨"namespace", by decide, ?_⟩
      have e : pyLower "namespace" = "namespace" := rfl
      rw [e]; exact h
  unfold detect
  rw [hpy, hcpp]
  simp

/-- Witness for `detect_cpp_markers` at a concrete snippet. -/
theorem detect_cpp_markers_witness : detect "std::cout << 1;" = "c++" :=
  detect_cpp_markers "std::cout << 1;" (Or.inl (by decide)) (by decide)

/-! ## LocalVectorDB (vectordb.py) -/

/-- A corpus entry (the JSON objects of the knowledge base).  `id` is absent
until assigned; the transient search `score` is kept separate (see `Hit`). -/
structure Entry where
  language : String := ""
  title : String := ""
  code_fragment : String := ""
  explanation : String := ""
  tags : List String := []
  id : Option String := none
deriving DecidableEq, Repr, Inhabited

/-- A search result: a copy of an entry annotated with its similarity score
(`item["score"] = float(scores[idx])`).  Scores are modeled over ℤ: the
embedding model is opaque in the specification, and the search claims concern
only the ordering of scores, not floating-point arithmetic. -/
structure Hit where
  entry : Entry
  score : Int
deriving DecidableEq, Repr, Inhabited

/-- `LocalVectorDB._entry_text` (vectordb.py lines 57-66):
`" ".join(part for part in parts if part).strip()`. -/
def entry_text (e : Entry) : String :=
  pyStrip (pyJoin " "
    (([e.language, e.title, e.code_fragment, e.explanation,
       pyJoin " " e.tags]).filter (fun p => !(p == ""))))

/-- The in-memory state of `LocalVectorDB`, together with the persisted
document (the contents of the JSON file), so that the persist-then-recompute
sequencing of `add_entry` is observable in the model. -/
structure DBState where
  entries : List Entry
  embeddings : List (List Int)
  persisted : List Entry
deriving Repr

/-- `LocalVectorDB._recompute_embeddings` (vectordb.py lines 50-55): an empty
corpus gets `np.zeros((0, 384))`, i.e. a matrix with zero rows (modeled as the
empty list of rows); otherwise the batch encoder is applied to the entry
texts. -/
def recompute_embeddings (encodeBatch : List String → List (List Int))
    (entries : List Entry) : List (List Int) :=
  if entries.isEmpty then []
  else encodeBatch (entries.map entry_text)

/-- `LocalVectorDB.load` (vectordb.py lines 19-24): the parsed contents of the
JSON document are the `doc` argument; after a successful load the on-disk
document is exactly what was read. -/
def load (encodeBatch : List String → List (List Int)) (doc : List Entry) : DBState :=
  { entries := doc
    embeddings := recompute_embeddings encodeBatch doc
    persisted := doc }

/-- The id assignment of `add_entry` (vectordb.py line 40):
`entry["id"] = entry.get("id") or f"{entry['language']}-{len(self.entries)+1}"`
(both a missing id and an empty-string id are falsy and get replaced). -/
def assignId (e : Entry) (corpusLen : Nat) : Entry :=
  match e.id with
  | some s =>
      if s = "" then { e with id := some (e.language ++ "-" ++ toString (corpusLen + 1)) }
      else e
  | none => { e with id := some (e.language ++ "-" ++ toString (corpusLen + 1)) }

/-- `LocalVectorDB.add_entry` (vectordb.py lines 39-43): assign the id, append
to the corpus, persist the full corpus, recompute the full embedding matrix —
in that order. -/
def add_entry (encodeBatch : List String → List (List Int)) (st : DBState)
    (e : Entry) : DBState :=
  { entries := st.entries ++ [assignId e st.entries.length]
    persisted := st.entries ++ [assignId e st.entries.length]
    embeddings :=
      recompute_embeddings encodeBatch (st.entries ++ [assignId e st.entries.length]) }

/-- Dot product of an embedding row with the query vector. -/
def dotProd (xs ys : List Int) : Int := (List.zipWith (fun a b => a * b) xs ys).sum

/-- `np.argsort(scores)`, modeled as a stable ascending argsort: indices
sorted by score, with equal scores keeping their original (ascending) index
order — equivalently, sorting by the lexicographic key (score, index). -/
def argsortAsc (scores : List Int) : List Nat :=
  List.insertionSort
    (fun i j => scores.getD i 0 < scores.getD j 0 ∨
      (scores.getD i 0 = scores.getD j 0 ∧ i ≤ j))
    (List.range scores.length)

/-- The per-row scores `np.dot(self.embeddings, query_vec)`. -/
def scoresOf (st : DBState) (qvec : List Int) : List Int :=
  st.embeddings.map (fun row => dotProd row qvec)

/-- `indices = np.argsort(scores)[::-1][:top_k]` (vectordb.py line 31). -/
def search_indices (st : DBState) (qvec : List Int) (top_k : Nat) : List Nat :=
  ((argsortAsc (scoresOf st qvec)).reverse).take top_k

/-- `LocalVectorDB.search` (vectordb.py lines 26-37).  `encode` is the opaque
embedding model restricted to single queries
(`self.model.encode([query], normalize_embeddings=True)[0]`).  Index access
`self.entries[idx]` is modeled with `getD` (all produced indices are in
range). -/
def search (encode : String → List Int) (st : DBState) (query : String)
    (top_k : Nat) : List Hit :=
  if st.entries.isEmpty then []
  else
    (search_indices st (encode query) top_k).map
      (fun i => { entry := st.entries.getD i default,
                  score := (scoresOf st (encode query)).getD i 0 })

/-- Modelled from the spec's words, for comparison with `search`: "sort
descending by score ... Ties broken by original corpus order (stable sort)" —
a stable descending sort of the corpus indices by score. -/
def search_spec_stable (encode : String → List Int) (st : DBState) (query : String)
    (top_k : Nat) : List Hit :=
  if st.entries.isEmpty then []
  else
    ((List.insertionSort
        (fun i j => (scoresOf st (encode query)).getD j 0 < (scoresOf st (encode query)).getD i 0 ∨
          ((scoresOf st (encode query)).getD i 0 = (scoresOf st (encode query)).getD j 0 ∧ i ≤ j))
        (List.range (scoresOf st (encode query)).length)).take top_k).map
      (fun i => { entry := st.entries.getD i default,
                  score := (scoresOf st (encode query)).getD i 0 })

/-! ### Helper lemmas for the search claims -/

theorem map_getD_range {α : Type _} (l : List α) (d : α) :
    (List.range l.length).map (fun i => l.getD i d) = l := by
  apply List.ext_getElem
  · simp
  · intro i h1 h2
    simp only [List.getElem_map, List.getElem_range]
    exact List.getD_eq_getElem l d h2

theorem argsortAsc_pairwise (scores : List Int) :
    List.Pairwise
      (fun i j => scores.getD i 0 < scores.getD j 0 ∨
        (scores.getD i 0 = scores.getD j 0 ∧ i ≤ j))
      (argsortAsc scores) := by
  haveI htot : IsTotal Nat
      (fun i j => scores.getD i 0 < scores.getD j 0 ∨
        (scores.getD i 0 = scores.getD j 0 ∧ i ≤ j)) := by
    constructor
    intro i j
    rcases lt_trichotomy (scores.getD i 0) (scores.getD j 0) with h | h | h
    · exact Or.inl (Or.inl h)
    · rcases Nat.le_total i j with hij | hij
      · exact Or.inl (Or.inr ⟨h, hij⟩)
      · exact Or.inr (Or.inr ⟨h.symm, hij⟩)
    · exact Or.inr (Or.inl h)
  haveI htrans : IsTrans Nat
      (fun i j => scores.getD i 0 < scores.getD j 0 ∨
        (scores.getD i 0 = scores.getD j 0 ∧ i ≤ j)) := by
    constructor
    rintro i j k (h1 | ⟨e1, l1⟩) (h2 | ⟨e2, l2⟩)
    · exact Or.inl (h1.trans h2)
    · exact Or.inl (by rw [← e2]; exact h1)
    · exact Or.inl (by rw [e1]; exact h2)
    · exact Or.inr ⟨e1.trans e2, l1.trans l2⟩
  exact List.sorted_insertionSort _ _

theorem argsortAsc_perm (scores : List Int) :
    (argsortAsc scores).Perm (List.range scores.length) :=
  List.perm_insertionSort _ _

theorem argsortAsc_length (scores : List Int) :
    (argsortAsc scores).length = scores.length := by
  simpa using (argsortAsc_perm scores).length_eq

/-! ## Claim C1 -/

/-- C1 (amended): for every nonempty corpus whose embedding matrix has one row
per entry and every query, `search` returns the hits sorted by descending
score, but ties are broken by REVERSED corpus order (the source reverses an
ascending stable argsort); when `top_k` is at least the corpus size, every
entry is returned exactly once (a permutation of the corpus). -/
theorem search_sorted_desc_and_complete (encode : String → List Int) (st : DBState)
    (query : String) (top_k : Nat) (hne : st.entries ≠ [])
    (hrows : st.embeddings.length = st.entries.length) :
    List.Pairwise (fun a b : Hit => b.score ≤ a.score) (search encode st query top_k) ∧
    List.Pairwise (fun i j =>
        (scoresOf st (encode query)).getD j 0 < (scoresOf st (encode query)).getD i 0 ∨
        ((scoresOf st (encode query)).getD i 0 = (scoresOf st (encode query)).getD j 0 ∧ j ≤ i))
      (search_indices st (encode query) top_k) ∧
    (st.entries.length ≤ top_k →
      ((search encode st query top_k).map Hit.entry).Perm st.entries) := by
  have hie : st.entries.isEmpty = false := by
    cases h : st.entries.isEmpty
    · rfl
    · exact absurd (List.isEmpty_iff.mp h) hne
  have hsearch : search encode st query top_k =
      (search_indices st (encode query) top_k).map
        (fun i => { entry := st.entries.getD i default,
                    score := (scoresOf st (encode query)).getD i 0 }) := by
    unfold search
    rw [hie]
    rfl
  have hidx : List.Pairwise (fun i j =>
      (scoresOf st (encode query)).getD j 0 < (scoresOf st (encode query)).getD i 0 ∨
      ((scoresOf st (encode query)).getD i 0 = (scoresOf st (encode query)).getD j 0 ∧ j ≤ i))
      (search_indices st (encode query) top_k) := by
    unfold search_indices
    refine List.Pairwise.sublist (List.take_sublist _ _) ?_
    rw [List.pairwise_reverse]
    refine (argsortAsc_pairwise _).imp ?_
    rintro a b (h | ⟨e, l⟩)
    · exact Or.inl h
    · exact Or.inr ⟨e.symm, l⟩
  refine ⟨?_, hidx, ?_⟩
  · rw [hsearch, List.pairwise_map]
    refine hidx.imp ?_
    rintro i j (h | ⟨e, _⟩)
    · exact le_of_lt h
    · exact le_of_eq e.symm
  · intro htk
    have hlen : (scoresOf st (encode query)).length = st.entries.length := by
      unfold scoresOf; rw [List.length_map, hrows]
    have hidxlist : search_indices st (encode query) top_k =
        (argsortAsc (scoresOf st (encode query))).reverse := by
      unfold search_indices
      apply List.take_of_length_le
      rw [List.length_reverse, argsortAsc_length, hlen]
      exact htk
    have hperm : ((argsortAsc (scoresOf st (encode query))).reverse).Perm
        (List.range st.entries.length) := by
      refine (List.reverse_perm _).trans ?_
      have := argsortAsc_perm (scoresOf st (encode query))
      rwa [hlen] at this
    have hmap := hperm.map (fun i => st.entries.getD i default)
    rw [map_getD_range st.entries default] at hmap
    rw [hsearch, List.map_map, hidxlist]
    exact hmap

def entryA : Entry := { language := "python", title := "A" }
def entryB : Entry := { language := "python", title := "B" }

/-- A two-entry state with identical embedding rows: both entries get the same
similarity score for every query. -/
def tieState : DBState :=
  { entries := [entryA, entryB], embeddings := [[1], [1]], persisted := [entryA, entryB] }

def constEncode : String → List Int := fun _ => [1]

/-- C1 counterexample: on two distinct entries with equal scores, `search`
returns them in reversed corpus order, which differs from the stable
original-order tie-breaking stated by the claim (`search_spec_stable`). -/
theorem search_tie_counterexample :
    search constEncode tieState "q" 2 =
      [{ entry := entryB, score := 1 }, { entry := entryA, score := 1 }] ∧
    search_spec_stable constEncode tieState "q" 2 =
      [{ entry := entryA, score := 1 }, { entry := entryB, score := 1 }] ∧
    search constEncode tieState "q" 2 ≠ search_spec_stable constEncode tieState "q" 2 := by
  decide

/-- Witness for `search_sorted_desc_and_complete` at a concrete state. -/
theorem search_sorted_desc_and_complete_witness :
    List.Pairwise (fun a b : Hit => b.score ≤ a.score) (search constEncode tieState "q" 2) ∧
    ((search constEncode tieState "q" 2).map Hit.entry).Perm tieState.entries :=
  ⟨(search_sorted_desc_and_complete constEncode tieState "q" 2 (by decide) (by decide)).1,
   (search_sorted_desc_and_complete constEncode tieState "q" 2 (by decide) (by decide)).2.2
     (by decide)⟩

/-! ## Claim C7 -/

/-- C7: after `load` or `add_entry` completes, the embedding matrix has
exactly one row per corpus entry (zero rows for the empty corpus).  `henc` is
the interface contract of the opaque batch encoder: one embedding per input
text (`encode_batch` of the spec). -/
theorem embeddings_row_count (encodeBatch : List String → List (List Int))
    (henc : ∀ ts, (encodeBatch ts).length = ts.length) :
    (∀ doc, (load encodeBatch doc).embeddings.length =
      (load encodeBatch doc).entries.length) ∧
    (∀ st e, (add_entry encodeBatch st e).embeddings.length =
      (add_entry encodeBatch st e).entries.length) := by
  have hrec : ∀ entries : List Entry,
      (recompute_embeddings encodeBatch entries).length = entries.length := by
    intro entries
    unfold recompute_embeddings
    cases hE : entries.isEmpty
    · rw [if_neg (by simp [hE]), henc, List.length_map]
    · rw [if_pos (by simp [hE]), List.isEmpty_iff.mp hE]
      rfl
  exact ⟨fun doc => hrec doc, fun st e => hrec _⟩

def constBatch : List String → List (List Int) := fun ts => ts.map (fun _ => [1])

/-- Witness for `embeddings_row_count`: a concrete one-entry load and an
insertion into it. -/
theorem embeddings_row_count_witness :
    (load constBatch [entryA]).embeddings.length =
      (load constBatch [entryA]).entries.length ∧
    (add_entry constBatch (load constBatch [entryA]) entryB).embeddings.length =
      (add_entry constBatch (load constBatch [entryA]) entryB).entries.length :=
  ⟨(embeddings_row_count constBatch (fun ts => by simp [constBatch])).1 [entryA],
   (embeddings_row_count constBatch (fun ts => by simp [constBatch])).2
     (load constBatch [entryA]) entryB⟩

/-! ## Claim C8 -/

/-- C8 (amended): inserting an entry without an id assigns it the id
"{language}-{corpus length + 1}", appends it to the corpus, persists the full
new corpus and recomputes the embedding matrix from that corpus (`add_entry`
is a total function — insertion always succeeds); the assigned id is unique
within the corpus provided no existing entry already carries that id — a
guarantee that holds when the corpus was built by insertions alone but that a
loaded document with arbitrary ids can violate. -/
theorem add_entry_assigns_and_persists (encodeBatch : List String → List (List Int))
    (st : DBState) (e : Entry) (hid : e.id = none)
    (hfresh : ∀ x ∈ st.entries,
      x.id ≠ some (e.language ++ "-" ++ toString (st.entries.length + 1))) :
    (add_entry encodeBatch st e).entries =
      st.entries ++
        [{ e with id := some (e.language ++ "-" ++ toString (st.entries.length + 1)) }] ∧
    (add_entry encodeBatch st e).persisted = (add_entry encodeBatch st e).entries ∧
    (add_entry encodeBatch st e).embeddings =
      recompute_embeddings encodeBatch ((add_entry encodeBatch st e).entries) ∧
    ((add_entry encodeBatch st e).entries.filter
      (fun x => x.id == some (e.language ++ "-" ++ toString (st.entries.length + 1)))).length
      = 1 := by
  have he' : assignId e st.entries.length =
      { e with id := some (e.language ++ "-" ++ toString (st.entries.length + 1)) } := by
    unfold assignId
    rw [hid]
  refine ⟨?_, rfl, rfl, ?_⟩
  · unfold add_entry
    rw [he']
  · unfold add_entry
    rw [he', List.filter_append]
    have h1 : st.entries.filter
        (fun x => x.id == some (e.language ++ "-" ++ toString (st.entries.length + 1))) = [] := by
      rw [List.filter_eq_nil_iff]
      intro a ha
      simpa using hfresh a ha
    rw [h1]
    simp

def emptyDB : DBState := { entries := [], embeddings := [], persisted := [] }

def swapEntry : Entry :=
  { language := "c", title := "swap", code_fragment := "void swap(int*a,int*b)",
    explanation := "swaps two ints via pointers", tags := ["pointers"] }

/-- Witness for `add_entry_assigns_and_persists`: inserting into the empty
corpus. -/
theorem add_entry_assigns_and_persists_witness :
    (add_entry constBatch emptyDB swapEntry).entries =
      emptyDB.entries ++
        [{ swapEntry with
            id := some (swapEntry.language ++ "-" ++ toString (emptyDB.entries.length + 1)) }] ∧
    ((add_entry constBatch emptyDB swapEntry).entries.filter
      (fun x => x.id ==
        some (swapEntry.language ++ "-" ++ toString (emptyDB.entries.length + 1)))).length
      = 1 :=
  ⟨(add_entry_assigns_and_persists constBatch emptyDB swapEntry rfl
      (by intro x hx; simp [emptyDB] at hx)).1,
   (add_entry_assigns_and_persists constBatch emptyDB swapEntry rfl
      (by intro x hx; simp [emptyDB] at hx)).2.2.2⟩

/-- A document that already contains the id "c-2" (ids in a loaded document
are arbitrary). -/
def clashDoc : List Entry := [{ language := "c", title := "old", id := some "c-2" }]

/-- C8 counterexample: after loading `clashDoc`, inserting an id-less "c"
entry assigns it the id "c-2" (corpus length 1, so ordinal 2), which collides
with the id already present — the assigned id is NOT unique within the corpus
for this load cycle. -/
theorem add_entry_duplicate_id_counterexample :
    ((add_entry constBatch (load constBatch clashDoc) swapEntry).entries.map
      (fun x => x.id)) = [some "c-2", some "c-2"] ∧
    ((add_entry constBatch (load constBatch clashDoc) swapEntry).entries.filter
      (fun x => x.id == some "c-2")).length = 2 := by
  decide

/-! ## Embedded regular expressions of rag.py

Each regex of the source is embedded as a dedicated matcher.  In all of them
the character classes of adjacent greedy pieces are disjoint (keyword letters,
`\s`, `\w`, and the literal terminators `(`, `=`, `:`), so greedy matching
without backtracking computes exactly the Python match; and none of the
keyword alternatives is a prefix of another, so at most one alternative can
match at a given position. -/

/-- Try the keyword alternatives in order at the head of `s`. -/
def stripKwAlt (kws : List String) (s : List Char) : Option (String × List Char) :=
  kws.findSome? fun kw =>
    if kw.data.isPrefixOf s then some (kw, s.drop kw.length) else none

/-- Anchored match of `\s*(def|int|void|float|double|char|bool)\s+(\w+)\s*\(`
(rag.py lines 185-186: the anchored branch condition and the group-extracting
search coincide at position 0 because `stripped` has no leading whitespace).
Returns the keyword and the function name. -/
def matchFuncDef (s : List Char) : Option (String × String) :=
  let s1 := s.dropWhile isPySpace
  match stripKwAlt ["def", "int", "void", "float", "double", "char", "bool"] s1 with
  | none => none
  | some (kw, r1) =>
    if (r1.takeWhile isPySpace).isEmpty then none
    else
      let r2 := r1.dropWhile isPySpace
      let name := r2.takeWhile isWordChar
      if name.isEmpty then none
      else
        match (r2.drop name.length).dropWhile isPySpace with
        | '(' :: _ => some (kw, String.mk name)
        | _ => none

/-- Leftmost match of `\(([^)]*)\)` (rag.py line 196): the text between the
first '(' and the first ')' after it; when no ')' follows the first '(' there
is no match at all (no ')' remains for any later '(' either). -/
def paramsGroup : List Char → Option String
  | [] => none
  | '(' :: rest =>
    let inner := rest.takeWhile (fun c => c != ')')
    if (rest.drop inner.length).isEmpty then none
    else some (String.mk inner)
  | _ :: rest => paramsGroup rest

/-- Anchored match of `\s*(int|float|double|char|bool|var|let|const)\s+\w+`
(rag.py line 227). -/
def matchVarDecl (s : List Char) : Bool :=
  let s1 := s.dropWhile isPySpace
  match stripKwAlt ["int", "float", "double", "char", "bool", "var", "let", "const"] s1 with
  | none => false
  | some (_, r1) =>
    if (r1.takeWhile isPySpace).isEmpty then false
    else !((r1.dropWhile isPySpace).takeWhile isWordChar).isEmpty

/-- The tail `\s*(\w+)\s*[=:]\s*(.+)` of the var-assignment pattern, anchored.
For `\s*(.+)` note that `.+` needs at least one character: when only spaces
remain, the greedy `\s*` gives one back, so group 3 keeps the last character
even when it is a space (`min` below). -/
def varAssignTail (kw : Option String) (r : List Char) :
    Option (Option String × String × String) :=
  let r1 := r.dropWhile isPySpace
  let name := r1.takeWhile isWordChar
  if name.isEmpty then none
  else
    match (r1.drop name.length).dropWhile isPySpace with
    | c :: r2 =>
      if c = '=' ∨ c = ':' then
        match r2 with
        | [] => none
        | _ :: _ =>
          let sp := r2.takeWhile isPySpace
          some (kw, String.mk name, String.mk (r2.drop (min sp.length (r2.length - 1))))
      else none
    | [] => none

/-- One anchored attempt of
`(int|float|double|char|bool|var|let|const)?\s*(\w+)\s*[=:]\s*(.+)`
(rag.py line 228).  The `?` is greedy: the keyword alternative is preferred,
the empty alternative is the fallback. -/
def varAssignAt (s : List Char) : Option (Option String × String × String) :=
  match stripKwAlt ["int", "float", "double", "char", "bool", "var", "let", "const"] s with
  | some (kw, r) =>
    match varAssignTail (some kw) r with
    | some g => some g
    | none => varAssignTail none s
  | none => varAssignTail none s

/-- Leftmost match of the var-assignment pattern. -/
def findVarAssign : List Char → Option (Option String × String × String)
  | [] => none
  | c :: rest =>
    match varAssignAt (c :: rest) with
    | some g => some g
    | none => findVarAssign rest

/-- One anchored attempt of `\w+\s*\([^)]*\)` (rag.py line 257). -/
def callPatternAt (s : List Char) : Bool :=
  let w := s.takeWhile isWordChar
  if w.isEmpty then false
  else
    match (s.drop w.length).dropWhile isPySpace with
    | '(' :: r =>
      let inner := r.takeWhile (fun c => c != ')')
      !(r.drop inner.length).isEmpty
    | _ => false

/-- `re.search(r'\w+\s*\([^)]*\)', stripped)` as a Bool. -/
def hasCallPattern : List Char → Bool
  | [] => false
  | c :: rest => callPatternAt (c :: rest) || hasCallPattern rest

/-- One anchored attempt of `(\w+)\s*\(` (rag.py line 258). -/
def callNameAt (s : List Char) : Option String :=
  let w := s.takeWhile isWordChar
  if w.isEmpty then none
  else
    match (s.drop w.length).dropWhile isPySpace with
    | '(' :: _ => some (String.mk w)
    | _ => none

/-- Leftmost match of `(\w+)\s*\(`, returning the captured name. -/
def findCallName : List Char → Option String
  | [] => none
  | c :: rest =>
    match callNameAt (c :: rest) with
    | some n => some n
    | none => findCallName rest

/-- `re.match(r'\s*(def|int|void)\s+\w+', line)` (rag.py line 262). -/
def matchesDefIntVoid (line : String) : Bool :=
  let s1 := line.data.dropWhile isPySpace
  match stripKwAlt ["def", "int", "void"] s1 with
  | none => false
  | some (_, r1) =>
    if (r1.takeWhile isPySpace).isEmpty then false
    else !((r1.dropWhile isPySpace).takeWhile isWordChar).isEmpty

/-- `line.split()[1].split("(")[0]` (rag.py line 261); the guard
`matchesDefIntVoid` guarantees at least two whitespace tokens. -/
def secondTokenName (line : String) : String :=
  match wsTokensL line.data with
  | _ :: t :: _ => String.mk (t.takeWhile (fun c => c != '('))
  | _ => ""

/-- The list comprehension of rag.py lines 261-262: the names of the functions
defined in the snippet. -/
def definedFuncNames (allLines : List String) : List String :=
  (allLines.filter (fun l => matchesDefIntVoid l)).map secondTokenName

/-- One anchored attempt of `(kw alternatives)\s+\w+\s*\(` used by
`_analyze_structure` (rag.py line 337). -/
def funcPatternAt (kws : List String) (s : List Char) : Bool :=
  match stripKwAlt kws s with
  | none => false
  | some (_, r1) =>
    if (r1.takeWhile isPySpace).isEmpty then false
    else
      let r2 := r1.dropWhile isPySpace
      let name := r2.takeWhile isWordChar
      if name.isEmpty then false
      else
        match (r2.drop name.length).dropWhile isPySpace with
        | '(' :: _ => true
        | _ => false

/-- `re.search(r'\b(def|function|int|void)\s+\w+\s*\(', code)` as a Bool;
`prevW` tracks whether the previous character is a word character (the `\b`
boundary requires it not to be, since the keywords start with a word
character). -/
def hasFuncPatternB : (prevW : Bool) → List Char → Bool
  | _, [] => false
  | prevW, c :: rest =>
    (!prevW && funcPatternAt ["def", "function", "int", "void"] (c :: rest)) ||
      hasFuncPatternB (isWordChar c) rest

/-- One anchored attempt of `(def|function|int|void|class)\s+(\w+)`; returns
the captured name and the total matched length (used by `findallKwNames`). -/
def kwNameAt (kws : List String) (s : List Char) : Option (String × Nat) :=
  match stripKwAlt kws s with
  | none => none
  | some (kw, r1) =>
    let sp := r1.takeWhile isPySpace
    if sp.isEmpty then none
    else
      let r2 := r1.dropWhile isPySpace
      let name := r2.takeWhile isWordChar
      if name.isEmpty then none
      else some (String.mk name, kw.length + sp.length + name.length)

/-- `re.findall(r'\b(def|function|int|void|class)\s+(\w+)', code)`, keeping
the second capture of each leftmost non-overlapping match (rag.py lines
323-325; the comprehension guard `len(match) > 1` is always true for this
two-group pattern).  Fuel-based scan: every successful match consumes at
least three characters, so `s.length + 1` units of fuel always suffice; the
last character of a match is a word character, hence `prevW := true` after a
match. -/
def findallKwNamesAux (s : List Char) : Nat → Nat → Bool → List String
  | 0, _, _ => []
  | fuel + 1, p, prevW =>
    if p < s.length then
      match (if prevW then none
             else kwNameAt ["def", "function", "int", "void", "class"] (s.drop p)) with
      | some (name, len) => name :: findallKwNamesAux s fuel (p + len) true
      | none => findallKwNamesAux s fuel (p + 1) (isWordChar (s.getD p ' '))
    else []

def findallKwNames (s : List Char) : List String :=
  findallKwNamesAux s (s.length + 1) 0 false

/-- One anchored attempt of `(def|int|void|function)\s+(\w+)\s*\(`
(rag.py line 400), returning (keyword, name, matched text). -/
def funcSearchAt (s : List Char) : Option (String × String × List Char) :=
  match stripKwAlt ["def", "int", "void", "function"] s with
  | none => none
  | some (kw, r1) =>
    let sp1 := r1.takeWhile isPySpace
    if sp1.isEmpty then none
    else
      let r2 := r1.dropWhile isPySpace
      let name := r2.takeWhile isWordChar
      if name.isEmpty then none
      else
        let sp2 := (r2.drop name.length).takeWhile isPySpace
        match (r2.drop name.length).dropWhile isPySpace with
        | '(' :: _ => some (kw, String.mk name, kw.data ++ sp1 ++ name ++ sp2 ++ ['('])
        | _ => none

/-- Leftmost match of `(def|int|void|function)\s+(\w+)\s*\(`. -/
def findFuncSearch : List Char → Option (String × String × List Char)
  | [] => none
  | c :: rest =>
    match funcSearchAt (c :: rest) with
    | some g => some g
    | none => findFuncSearch rest

/-- Python `str.replace(old, new, 1)` with empty replacement: remove the
first occurrence (rag.py line 408).  The matched text's first occurrence in
`code` is exactly the leftmost regex match being removed: were the same text
present earlier, the pattern would have matched there instead. -/
def removeFirstL (pat : List Char) : List Char → List Char
  | [] => []
  | c :: rest =>
    if pat ≠ [] ∧ pat.isPrefixOf (c :: rest) = true then (c :: rest).drop pat.length
    else c :: removeFirstL pat rest

/-! ## CodeExplainerRAG: per-line analysis (rag.py lines 124-314) -/

/-- Include-directive fragments (rag.py lines 176-182). -/
def includeFrags (stripped : String) : List String :=
  let lib := pyStripChars ['<', '>', '\"'] (pyStrip (replaceAllStr "#include" "" stripped))
  ["Includes the " ++ lib ++ " library, providing standard I/O functions"] ++
  (if containsStr "stdio.h" lib then ["for input/output operations like printf and scanf"]
   else if containsStr "stdlib.h" lib then ["for memory management and utility functions"]
   else [])

/-- Function-definition fragments (rag.py lines 185-200). -/
def funcDefFrags (stripped : String) : List String :=
  match matchFuncDef stripped.data with
  | none => []
  | some (kw, name) =>
    (if kw = "def" then ["Defines a Python function named \x27" ++ name ++ "\x27"]
     else ["Defines a " ++ kw ++ " function named \x27" ++ name ++ "\x27"]) ++
    (match paramsGroup stripped.data with
     | some p =>
       if pyStrip p ≠ "" then ["that takes parameters: " ++ pyStrip p]
       else ["that takes no parameters"]
     | none => ["that takes no parameters"])

/-- Return-statement fragment (rag.py lines 203-212).  Note the source's
`stripped.replace("return", "")` replaces every occurrence. -/
def returnFrag (stripped : String) : String :=
  let expr := pyStrip (replaceAllStr "return" "" stripped)
  if expr = "0" then "Returns 0 to indicate successful program termination"
  else if expr = "n" ∨ expr = "1" ∨ expr = "-1" then
    "Returns the value " ++ expr ++ ", typically used as a base case or result"
  else if containsStr "fibonacci" (pyLower expr) || containsStr "fib" (pyLower expr) then
    "Recursively returns the sum of two previous Fibonacci numbers"
  else "Returns the result: " ++ expr

/-- If-statement fragments (rag.py lines 215-224). -/
def ifFrags (stripped language : String) : List String :=
  let condition := pyStripChars ['(', ')', ':'] (pyStrip (replaceAllStr "if" "" stripped))
  if containsStr "n <= 1" condition || containsStr "n < 2" condition then
    ["Base case check: if n is 0 or 1, return n directly",
     "This prevents infinite recursion in Fibonacci calculation"]
  else if containsStr "in " condition && (language == "python") then
    ["Checks if an element exists in a collection: " ++ condition]
  else
    ["Conditional check: " ++ condition, "If true, executes the following block"]

/-- Variable-declaration fragments (rag.py lines 227-233). -/
def varDeclFrags (stripped : String) : List String :=
  match findVarAssign stripped.data with
  | some (kw, name, value) =>
    let varType := match kw with | some k => k | none => "variable"
    let varValue := pyRStripChars [';'] (pyStrip value)
    ["Declares " ++ varType ++ " \x27" ++ name ++ "\x27 and initializes it to " ++ varValue]
  | none => []

/-- Loop fragment (rag.py lines 236-245). -/
def loopFrag (stripped language : String) : String :=
  if containsStr "for " stripped then
    if containsStr "in range" stripped then "Iterates over a range of numbers"
    else if containsStr "in " stripped && (language == "python") then
      "Iterates over elements in a collection"
    else "Traditional for loop with initialization, condition, and increment"
  else "While loop: continues executing while condition is true"

/-- Print/output fragment (rag.py lines 248-254). -/
def printFrag (stripped : String) : String :=
  if containsStr "printf" stripped then "Prints formatted output to the console"
  else if containsStr "cout" stripped then "C++ output stream: sends data to standard output"
  else "Python print function: displays output to console"

/-- Recursive-call fragments (rag.py lines 257-264). -/
def callFrags (stripped : String) (allLines : List String) : List String :=
  match findCallName stripped.data with
  | some name =>
    if (definedFuncNames allLines).contains name then
      ["Recursive call to \x27" ++ name ++ "\x27 function",
       "This function calls itself with modified parameters"]
    else []
  | none => []

/-- Arithmetic fragments (rag.py lines 267-270). -/
def arithFrags (stripped : String) : List String :=
  if containsStr "fibonacci" (pyLower stripped) || containsStr "fib" (pyLower stripped) then
    ["Calculates Fibonacci by summing two recursive calls", "F(n) = F(n-1) + F(n-2)"]
  else []

/-- `_generic_line_explanation` (rag.py lines 303-314). -/
def generic_line_explanation (line language : String) : String :=
  if containsStr "\x7b" line then "Opens a code block"
  else if containsStr "\x7d" line then "Closes a code block"
  else if containsStr ";" line && (language == "c" || language == "c++") then
    "Statement terminator (semicolon ends the statement)"
  else if containsStr ":" line && (language == "python") then
    "Python block indicator (colon starts a new block)"
  else "Executes: " ++ takeChars 50 line

/-- The ordered `elif` cascade of `_explain_line` (rag.py lines 170-271): the
fragments accumulated by the first matching branch.  The source's `original`,
`context` and `line_index` parameters are never read in the body and are
omitted here. -/
def explainFragments (stripped language : String) (allLines : List String) : List String :=
  if startsWithStr "#include" stripped then includeFrags stripped
  else if (matchFuncDef stripped.data).isSome then funcDefFrags stripped
  else if startsWithStr "return " stripped then [returnFrag stripped]
  else if startsWithStr "if " stripped then ifFrags stripped language
  else if matchVarDecl stripped.data then varDeclFrags stripped
  else if startsWithStr "for " stripped || startsWithStr "while " stripped then
    [loopFrag stripped language]
  else if containsStr "printf" stripped || containsStr "cout" stripped ||
      containsStr "print(" stripped then [printFrag stripped]
  else if hasCallPattern stripped.data && !containsStr "=" stripped then
    callFrags stripped allLines
  else if ["+", "-", "*", "/", "%"].any (fun op => containsStr op stripped) then
    arithFrags stripped
  else []

/-- The final fragment list: the catch-all default fires when the cascade
produced nothing (rag.py lines 273-274). -/
def line_fragments (stripped language : String) (allLines : List String) : List String :=
  let frags := explainFragments stripped language allLines
  if frags.isEmpty then [generic_line_explanation stripped language] else frags

/-- `_explain_line` (rag.py lines 170-276): `". ".join(explanations) + "."`. -/
def explain_line (stripped language : String) (allLines : List String) : String :=
  pyJoin ". " (line_fragments stripped language allLines) ++ "."

/-- `_is_comment_only` (rag.py lines 278-285). -/
def is_comment_only (line language : String) : Bool :=
  let stripped := pyStrip line
  if language == "c" || language == "c++" then
    startsWithStr "//" stripped || startsWithStr "/*" stripped
  else if language == "python" then startsWithStr "#" stripped
  else false

/-- `_explain_comment` (rag.py lines 287-292); its `language` parameter is
never read. -/
def explain_comment (line : String) : String :=
  let commentText := pyStrip (pyLStripChars ['#', '/'] line)
  if commentText ≠ "" then "Comment: " ++ commentText
  else "Comment line for code documentation"

/-- The per-line annotation record (the dicts built in
`_analyze_line_by_line`, also `LineExplanation` of main.py). -/
structure LineAnnot where
  line_number : Nat
  code : String
  explanation : String
deriving DecidableEq, Repr, Inhabited

/-- `_analyze_line_by_line` (rag.py lines 124-168).  `line_num` starts at 1
and is incremented on every path, so the entry at 0-based index `i` carries
`line_number = i + 1`.  The `context_keywords` dict built from the retrieved
context is passed to `_explain_line` but never read there, so the annotations
do not depend on the retrieved context and that argument is omitted. -/
def analyze_line_by_line (code language : String) : List LineAnnot :=
  let lines := pySplitLines code
  lines.enum.map fun p =>
    let stripped := pyStrip p.2
    if stripped = "" then
      { line_number := p.1 + 1, code := p.2,
        explanation := "Empty line (whitespace for readability)" }
    else if is_comment_only stripped language then
      { line_number := p.1 + 1, code := p.2,
        explanation := explain_comment stripped }
    else
      { line_number := p.1 + 1, code := p.2,
        explanation := explain_line stripped language lines }

/-! ## CodeExplainerRAG: query construction, heuristics and summaries -/

/-- `_extract_keywords` (rag.py lines 320-331). -/
def extract_keywords (code : String) : String :=
  let keywords := findallKwNames code.data
  let algoKeywords := ["sort", "search", "fibonacci", "graph", "tree", "hash", "stack", "queue"]
  let foundAlgos := algoKeywords.filter (fun kw => containsStr (pyLower kw) (pyLower code))
  pyJoin " " (keywords ++ foundAlgos)

/-- `_analyze_structure` (rag.py lines 333-352). -/
def analyze_structure (code : String) : String :=
  let features :=
    (if hasFuncPatternB false code.data then ["function definition"] else []) ++
    (if containsStr "if " code || containsStr "if(" code then ["conditional logic"] else []) ++
    (if containsStr "for " code || containsStr "while " code then ["loop construct"] else []) ++
    (if containsStr "return " code then ["return statement"] else []) ++
    (if containsStr "class " code then ["class definition"] else []) ++
    (if containsStr "*" code && (containsStr "int" code || containsStr "char" code) then
      ["pointer usage"] else []) ++
    (if containsStr "[" code && containsStr "]" code then ["array/indexing"] else [])
  if features.isEmpty then "basic structure" else pyJoin ", " features

/-- `_infer_intent` (rag.py lines 453-513): the fixed ordered rule list,
first match wins.  The class/template/main rules test the original-case
`code`, as in the source. -/
def infer_intent (code : String) : String :=
  let lowered := pyLower code
  if containsStr "fibonacci" lowered || containsStr "fib" lowered then
    "a recursive Fibonacci sequence generator that calculates the nth Fibonacci number using the mathematical relationship F(n) = F(n-1) + F(n-2) with base cases for n <= 1"
  else if containsStr "quicksort" lowered ||
      (containsStr "sort" lowered && containsStr "pivot" lowered) then
    "the Quicksort algorithm, a divide-and-conquer sorting method that partitions arrays around a pivot element"
  else if containsStr "mergesort" lowered ||
      (containsStr "sort" lowered && containsStr "merge" lowered) then
    "the Mergesort algorithm, which divides arrays into halves and merges sorted subarrays"
  else if containsStr "binary" lowered && containsStr "search" lowered then
    "binary search, an efficient O(log n) search algorithm for sorted arrays"
  else if containsStr "graph" lowered ||
      (containsStr "node" lowered && containsStr "neighbor" lowered) then
    "graph traversal, likely using depth-first or breadth-first search to visit all nodes"
  else if containsStr "tree" lowered &&
      (containsStr "node" lowered || containsStr "leaf" lowered) then
    "tree data structure operations, such as traversal or node manipulation"
  else if containsStr "stack" lowered ||
      (containsStr "push" lowered && containsStr "pop" lowered) then
    "stack data structure with LIFO (Last In First Out) operations"
  else if containsStr "queue" lowered ||
      (containsStr "enqueue" lowered && containsStr "dequeue" lowered) then
    "queue data structure with FIFO (First In First Out) operations"
  else if containsStr "swap" lowered then
    "a value swapping utility that exchanges two variables, often using temporary storage or pointer manipulation"
  else if containsStr "reverse" lowered then
    "string or array reversal algorithm"
  else if containsStr "factorial" lowered || containsStr "fact" lowered then
    "factorial calculation, typically using recursion"
  else if containsStr "malloc" lowered || containsStr "new " lowered then
    "dynamic memory allocation"
  else if containsStr "free" lowered || containsStr "delete " lowered then
    "memory deallocation and resource cleanup"
  else if containsStr "class " code &&
      (containsStr "__init__" lowered || containsStr "constructor" lowered) then
    "an object-oriented class definition with initialization logic"
  else if containsStr "template" code then
    "generic programming using templates for type-independent code"
  else if containsStr "main()" code || containsStr "int main" code then
    "a main program entry point that orchestrates function calls and program execution"
  else "core algorithmic logic with specific computational steps"

/-- `_identify_patterns` (rag.py lines 422-451). -/
def identify_patterns (code language : String) : String :=
  let lowered := pyLower code
  let patterns :=
    (if containsStr "fibonacci" lowered || containsStr "fib" lowered then
      ["Fibonacci sequence calculation"] else []) ++
    (if containsStr "sort" lowered then ["sorting algorithm"] else []) ++
    (if containsStr "search" lowered || containsStr "find" lowered then
      ["search algorithm"] else []) ++
    (if containsStr "graph" lowered || containsStr "node" lowered then
      ["graph data structure"] else []) ++
    (if containsStr "class " code && (language == "python" || language == "c++") then
      ["object-oriented design"] else []) ++
    (if containsStr "template" code then ["generic programming"] else []) ++
    (if containsStr "*" code && (language == "c" || language == "c++") then
      ["pointer manipulation"] else []) ++
    (if containsStr "return " code && countOcc "return" code > 1 then
      ["early return pattern"] else []) ++
    (if containsStr "if " code && containsStr "else" code then
      ["conditional branching"] else [])
  if patterns.isEmpty then "Standard implementation pattern"
  else "Identified patterns: " ++ pyJoin ", " patterns

/-- `_analyze_code_structure` (rag.py lines 392-420); the `language`
parameter and the locals `lines`/`non_empty` are never read in the source and
are omitted.  The recursion check removes the first occurrence of the whole
matched text from `code` and looks for the function name in the rest. -/
def analyze_code_structure (code : String) : String :=
  let structureDesc :=
    (match findFuncSearch code.data with
     | some (_, name, whole) =>
       ["defines function \x27" ++ name ++ "\x27"] ++
       (if containsStr name (String.mk (removeFirstL whole code.data)) then
          ["uses recursive calls"] else [])
     | none => []) ++
    (if containsStr "for " code || containsStr "while " code then
      ["contains iterative loops"] else []) ++
    (if countOcc "if " code > 0 then
      ["has " ++ toString (countOcc "if " code) ++ " conditional branch" ++
        (if countOcc "if " code > 1 then "es" else "")] else [])
  if structureDesc.isEmpty then ""
  else "The code " ++ pyJoin ", " structureDesc ++ "."

/-- The dict returned by `_generate_detailed_explanation`. -/
structure DetailedExpl where
  summary : String
  analysis_steps : List String
deriving DecidableEq, Repr

/-- `_generate_detailed_explanation` (rag.py lines 354-390). -/
def generate_detailed_explanation (code language : String) (context : List Hit) :
    DetailedExpl :=
  let intent := infer_intent code
  let structureDesc := analyze_code_structure code
  let patterns := identify_patterns code language
  let contextInsights := (context.take 3).filterMap
    (fun h => if h.entry.explanation = "" then none else some h.entry.explanation)
  let summaryParts :=
    ["This " ++ language ++ " code implements " ++ intent ++ ".",
     structureDesc, patterns] ++
    (if contextInsights.isEmpty then []
     else ["Similar patterns in the knowledge base suggest: " ++
           pyJoin "; " (contextInsights.take 2) ++ "."])
  { summary := pyJoin " " summaryParts
    analysis_steps :=
      ["Identified primary purpose: " ++ intent,
       "Code structure analysis: " ++ analyze_structure code,
       "Pattern recognition: " ++ patterns] }

/-- `_detailed_fallback_explanation` (rag.py lines 521-533). -/
def detailed_fallback_explanation (language code : String) : String :=
  "This " ++ language ++ " code implements " ++ infer_intent code ++ ". " ++
  "The implementation uses " ++ analyze_structure code ++ ". " ++
  "While no exact matches were found in the knowledge base, the code follows standard " ++
  language ++ " conventions and demonstrates common programming patterns. " ++
  "Key aspects include proper function definition, control flow management, and algorithmic logic."

/-- Step 1 of `explain` (rag.py line 87):
`(language_hint or "").lower().strip() or self.detector.detect(code)`. -/
def resolve_language (language_hint : Option String) (code : String) : String :=
  let h := pyStrip (pyLower (language_hint.getD ""))
  if h = "" then detect code else h

/-- The retrieval query (rag.py line 90). -/
def search_query (language code : String) : String :=
  language ++ " programming: " ++ extract_keywords code ++ " " ++ takeChars 300 code

/-- The structured result of `explain` (also `ExplainResponse` of main.py). -/
structure ExplainResult where
  language : String
  summary : String
  reasoning : List String
  line_by_line : List LineAnnot
  references : List Hit
deriving DecidableEq, Repr

/-- `CodeExplainerRAG.explain` (rag.py lines 85-122).  The call
`self.db.search(query=search_query, top_k=5)` goes through the opaque
embedding model, so its result enters the embedding as the `context`
parameter; the theorems quantify over it. -/
def explain (context : List Hit) (code : String) (language_hint : Option String) :
    ExplainResult :=
  let language := resolve_language language_hint code
  let reasoning :=
    ["Detected language: " ++ language,
     "Analyzed code structure: " ++ analyze_structure code,
     "Retrieved " ++ toString context.length ++ " reference snippet(s) from knowledge base"]
  let lineByLine := analyze_line_by_line code language
  if context.isEmpty then
    { language := language
      summary := detailed_fallback_explanation language code
      reasoning := reasoning ++ ["No close references found, using heuristic analysis."]
      line_by_line := lineByLine
      references := [] }
  else
    let d := generate_detailed_explanation code language context
    { language := language
      summary := d.summary
      reasoning := reasoning ++ d.analysis_steps
      line_by_line := lineByLine
      references := context.take 3 }

/-! ## Boundary layer (main.py) -/

/-- The outcome of a POST /explain request at the boundary layer. -/
inductive ApiOutcome where
  | validationError                -- pydantic rejects the request body (422)
  | emptyCodeError                 -- HTTPException 400 "Code snippet cannot be empty"
  | ok (result : ExplainResult)
deriving DecidableEq, Repr

/-- The `/explain` endpoint (main.py lines 32-34 and 83-90): pydantic
validates `ExplainRequest` — in particular `min_length=10` on `code` — before
the handler body runs; the handler then rejects blank/whitespace-only code
with a 400 and otherwise calls the engine.  As in `explain`, `context`
abstracts the knowledge-base retrieval. -/
def explain_endpoint (context : List Hit) (code : String) (language : Option String) :
    ApiOutcome :=
  if code.length < 10 then ApiOutcome.validationError
  else if pyStrip code = "" then ApiOutcome.emptyCodeError
  else ApiOutcome.ok (explain context code language)

/-! ## Claim C10 -/

/-- C10: every request whose code string is shorter than 10 characters is
rejected at request validation — the outcome is the pydantic validation
error, never the blank-input 400 (checked later) and never an engine result,
so no sub-10-character input reaches the core. -/
theorem short_code_rejected_at_validation (context : List Hit) (code : String)
    (language : Option String) (h : code.length < 10) :
    explain_endpoint context code language = ApiOutcome.validationError := by
  unfold explain_endpoint
  rw [if_pos h]

/-- Witness for `short_code_rejected_at_validation`: a whitespace-only
3-character request is rejected by validation, not by the blank check. -/
theorem short_code_rejected_at_validation_witness :
    explain_endpoint [] "   " none = ApiOutcome.validationError :=
  short_code_rejected_at_validation [] "   " none (by decide)

/-! ### Helper lemmas for the line-analysis claims -/

theorem analyze_line_by_line_length (code language : String) :
    (analyze_line_by_line code language).length = (pySplitLines code).length := by
  unfold analyze_line_by_line
  simp

theorem analyze_line_by_line_get (code language : String) (i : Nat)
    (h : i < (analyze_line_by_line code language).length) :
    (analyze_line_by_line code language).get ⟨i, h⟩ =
      (fun line =>
        if pyStrip line = "" then
          { line_number := i + 1, code := line,
            explanation := "Empty line (whitespace for readability)" }
        else if is_comment_only (pyStrip line) language then
          { line_number := i + 1, code := line,
            explanation := explain_comment (pyStrip line) }
        else
          { line_number := i + 1, code := line,
            explanation := explain_line (pyStrip line) language (pySplitLines code) })
        ((pySplitLines code).getD i "") := by
  have hi : i < (pySplitLines code).length := by
    rwa [analyze_line_by_line_length] at h
  rw [List.get_eq_getElem, List.getD_eq_getElem _ _ hi]
  unfold analyze_line_by_line
  simp only [List.getElem_map, List.getElem_enum]

/-! ## Claim C4 -/

/-- C4: the `line_by_line` sequence returned by `explain` is
`analyze_line_by_line`, which has exactly one entry per physical line of the
input (`code.split('\n')` — counting blank lines, including trailing ones);
the entry at index `i` carries `line_number = i + 1` (strictly increasing,
starting at 1) and its `code` field is the exact original text of that
line. -/
theorem line_by_line_covers_input (context : List Hit) (code : String)
    (hint : Option String) :
    (explain context code hint).line_by_line =
      analyze_line_by_line code (resolve_language hint code) ∧
    (analyze_line_by_line code (resolve_language hint code)).length =
      (pySplitLines code).length ∧
    ∀ i (h : i < (analyze_line_by_line code (resolve_language hint code)).length),
      ((analyze_line_by_line code (resolve_language hint code)).get ⟨i, h⟩).line_number
        = i + 1 ∧
      ((analyze_line_by_line code (resolve_language hint code)).get ⟨i, h⟩).code =
        (pySplitLines code).getD i "" := by
  refine ⟨?_, analyze_line_by_line_length _ _, ?_⟩
  · unfold explain
    split <;> rfl
  · intro i h
    rw [analyze_line_by_line_get]
    dsimp only
    constructor <;> (split_ifs <;> rfl)

/-- Witness for `line_by_line_covers_input` on a three-line input with a
blank middle line. -/
theorem line_by_line_covers_input_witness :
    (explain [] "a\n\nb" none).line_by_line =
      analyze_line_by_line "a\n\nb" (resolve_language none "a\n\nb") ∧
    (analyze_line_by_line "a\n\nb" (resolve_language none "a\n\nb")).length =
      (pySplitLines "a\n\nb").length ∧
    ((analyze_line_by_line "a\n\nb" (resolve_language none "a\n\nb")).get
      ⟨2, by decide⟩).line_number = 3 :=
  ⟨(line_by_line_covers_input [] "a\n\nb" none).1,
   (line_by_line_covers_input [] "a\n\nb" none).2.1,
   ((line_by_line_covers_input [] "a\n\nb" none).2.2 2 (by decide)).1⟩

/-! ## Claim C9 -/

/-- C9 (amended): every line that is neither blank nor comment-only gets as
explanation the period-joined concatenation of the fragments of its matching
rule (with the generic catch-all as the final rule) plus a trailing period —
in particular it always ends in '.'.  Blank and comment-only lines get fixed
texts that need not end in a period (see the counterexample). -/
theorem explanation_period_joined (code language : String) (i : Nat)
    (h : i < (analyze_line_by_line code language).length)
    (hblank : pyStrip ((pySplitLines code).getD i "") ≠ "")
    (hcomment : is_comment_only (pyStrip ((pySplitLines code).getD i "")) language
      = false) :
    ((analyze_line_by_line code language).get ⟨i, h⟩).explanation =
      pyJoin ". " (line_fragments (pyStrip ((pySplitLines code).getD i "")) language
        (pySplitLines code)) ++ "." ∧
    (((analyze_line_by_line code language).get ⟨i, h⟩).explanation).data.getLast?
      = some '.' := by
  rw [analyze_line_by_line_get]
  dsimp only
  rw [if_neg hblank, if_neg (by rw [hcomment]; simp)]
  refine ⟨rfl, ?_⟩
  show (pyJoin ". " (line_fragments (pyStrip ((pySplitLines code).getD i "")) language
    (pySplitLines code)) ++ ".").data.getLast? = some '.'
  rw [String.data_append]
  exact List.getLast?_concat _

/-- Witness for `explanation_period_joined` on the line "x = 1". -/
theorem explanation_period_joined_witness :
    ((analyze_line_by_line "x = 1" "python").get ⟨0, by decide⟩).explanation =
      pyJoin ". " (line_fragments (pyStrip ((pySplitLines "x = 1").getD 0 "")) "python"
        (pySplitLines "x = 1")) ++ "." ∧
    (((analyze_line_by_line "x = 1" "python").get ⟨0, by decide⟩).explanation).data.getLast?
      = some '.' :=
  explanation_period_joined "x = 1" "python" 0 (by decide) (by decide) (by decide)

/-- C9 counterexample: a blank line's explanation is the fixed text
"Empty line (whitespace for readability)", which does not end in a trailing
period — the claim's "for every input line" fails on blank (and comment-only)
lines. -/
theorem blank_line_no_period_counterexample :
    ((analyze_line_by_line "" "python").getD 0 default).explanation =
      "Empty line (whitespace for readability)" ∧
    (((analyze_line_by_line "" "python").getD 0 default).explanation).data.getLast? ≠
      some '.' := by
  decide

/-! ### Helper lemmas for the summary/references claims -/

theorem containsStr_append_left (needle a b : String)
    (h : containsStr needle a = true) : containsStr needle (a ++ b) = true := by
  unfold containsStr at h ⊢
  rw [decide_eq_true_iff] at h ⊢
  rw [String.data_append]
  exact h.trans (List.prefix_append a.data b.data).isInfix

theorem containsStr_pyJoin_head (needle sep x : String) (xs : List String)
    (h : containsStr needle x = true) :
    containsStr needle (pyJoin sep (x :: xs)) = true := by
  cases xs with
  | nil => simpa [pyJoin] using h
  | cons y ys =>
    show containsStr needle (x ++ sep ++ pyJoin sep (y :: ys)) = true
    exact containsStr_append_left _ _ _ (containsStr_append_left _ _ _ h)

/-! ## Claim C6 -/

/-- C6: when retrieval returned no context entries, `explain` carries the
"no close references" reasoning note, the fallback summary built only from
the heuristic intent and structure analysis, and an empty references list;
when context was retrieved, the references are exactly the first three
retrieved entries. -/
theorem references_and_fallback (context : List Hit) (code : String)
    (hint : Option String) :
    (context = [] →
      (explain context code hint).references = [] ∧
      "No close references found, using heuristic analysis." ∈
        (explain context code hint).reasoning ∧
      (explain context code hint).summary =
        detailed_fallback_explanation (resolve_language hint code) code) ∧
    (context ≠ [] →
      (explain context code hint).references = context.take 3) := by
  constructor
  · rintro rfl
    refine ⟨rfl, ?_, rfl⟩
    show "No close references found, using heuristic analysis." ∈
      (["Detected language: " ++ resolve_language hint code,
        "Analyzed code structure: " ++ analyze_structure code,
        "Retrieved " ++ toString (List.length ([] : List Hit)) ++
          " reference snippet(s) from knowledge base"] ++
        ["No close references found, using heuristic analysis."])
    exact List.mem_append_right _ (List.mem_singleton_self _)
  · intro hne
    cases context with
    | nil => exact absurd rfl hne
    | cons h t => rfl

def sampleHit : Hit := { entry := swapEntry, score := 2 }

/-- Witness for `references_and_fallback`: empty retrieval gives empty
references; a singleton retrieval is returned as the references. -/
theorem references_and_fallback_witness :
    (explain [] "print(1)" none).references = [] ∧
    (explain [sampleHit] "print(1)" none).references = [sampleHit] := by
  refine ⟨((references_and_fallback [] "print(1)" none).1 rfl).1, ?_⟩
  have h := (references_and_fallback [sampleHit] "print(1)" none).2 (by simp)
  simpa using h

/-! ## Claim C2 -/

def fibCode : String :=
  "def fibonacci(n):\n    if n <= 1:\n        return n\n    return fibonacci(n-1) + fibonacci(n-2)"

/-- With retrieved context, the summary is the space-join headed by the
intent sentence (rag.py lines 368-379). -/
theorem explain_cons_summary (h : Hit) (t : List Hit) (code : String)
    (hint : Option String) :
    (explain (h :: t) code hint).summary =
      pyJoin " " (("This " ++ resolve_language hint code ++ " code implements " ++
        infer_intent code ++ ".") ::
        analyze_code_structure code ::
        identify_patterns code (resolve_language hint code) ::
        (if (((h :: t).take 3).filterMap
              (fun x => if x.entry.explanation = "" then none
                        else some x.entry.explanation)).isEmpty
         then []
         else ["Similar patterns in the knowledge base suggest: " ++
               pyJoin "; " ((((h :: t).take 3).filterMap
                 (fun x => if x.entry.explanation = "" then none
                           else some x.entry.explanation)).take 2) ++ "."])) := rfl

/-- C2 counterexample: for the Fibonacci scenario input, the line-3
explanation is "Returns the value n, typically used as a base case or
result." — it does not mention "0 or 1" (that text appears in line 2's
explanation instead). -/
theorem fib_line3_counterexample :
    ((explain [] fibCode none).line_by_line.getD 2 default).explanation =
      "Returns the value n, typically used as a base case or result." ∧
    containsStr "0 or 1"
      (((explain [] fibCode none).line_by_line.getD 2 default).explanation) = false := by
  decide

/-- C2 (amended): for the Fibonacci scenario input with no language hint and
any retrieval outcome, `explain` returns language "python", a summary carrying
the inferred intent that mentions "Fibonacci", a line-2 explanation mentioning
"base case" (case-insensitively: the text is "Base case check: ...") and
"0 or 1", and a line-3 explanation mentioning "base case" — the "0 or 1" text
belongs to line 2, not line 3. -/
theorem fib_scenario (context : List Hit) :
    (explain context fibCode none).language = "python" ∧
    containsStr "Fibonacci" ((explain context fibCode none).summary) = true ∧
    containsStr "base case"
      (pyLower (((explain context fibCode none).line_by_line.getD 1 default).explanation))
      = true ∧
    containsStr "0 or 1"
      (((explain context fibCode none).line_by_line.getD 1 default).explanation) = true ∧
    containsStr "base case"
      (((explain context fibCode none).line_by_line.getD 2 default).explanation) = true := by
  cases context with
  | nil => decide
  | cons h t =>
    have hlang : (explain (h :: t) fibCode none).language =
        resolve_language none fibCode := rfl
    have hlbl : (explain (h :: t) fibCode none).line_by_line =
        analyze_line_by_line fibCode (resolve_language none fibCode) := rfl
    refine ⟨?_, ?_, ?_, ?_, ?_⟩
    · rw [hlang]; decide
    · rw [explain_cons_summary h t fibCode none]
      exact containsStr_pyJoin_head _ _ _ _ (by decide)
    · rw [hlbl]; decide
    · rw [hlbl]; decide
    · rw [hlbl]; decide
